import Mathlib

/-!
Verification of the networkstatus appliance (src/networkstatus.py,
src/hardware.py, src/network-status-main.py) against its natural-language
specification.

Conventions of the shallow embedding:
* Python tri-state verdicts None / True / False are Option Bool
  (none = Unknown, some true = Pass, some false = Fail).
* Python truthiness of a verdict is the function truthy below.
* Wall-clock times (time.time() values, epoch seconds) are rationals.
* The Python built-in round (round half to even) is pyRound.
* Effectful routines are embedded as pure functions that also return an
  explicit trace of the events (observer notifications, LED refreshes,
  printed lines) the source code performs, in source order.
-/

namespace NetworkStatus

/-- Python truthiness restricted to the verdict values None, True, False:
bool(None) = False, bool(b) = b. -/
def truthy : Option Bool → Bool
  | none => false
  | some b => b

/-- The built-in round of Python 3: round half to even. -/
def pyRound (q : ℚ) : ℤ :=
  if q - ⌊q⌋ < 1/2 then ⌊q⌋
  else if (1:ℚ)/2 < q - ⌊q⌋ then ⌊q⌋ + 1
  else if 2 ∣ ⌊q⌋ then ⌊q⌋ else ⌊q⌋ + 1

/-- combine_results from src/networkstatus.py lines 396-401:
if lhs is None return rhs; if rhs is None return lhs; return lhs and rhs
(for booleans, Python and is conjunction). -/
def combine_results : Option Bool → Option Bool → Option Bool
  | none, rhs => rhs
  | some l, none => some l
  | some l, some r => some (l && r)

lemma combine_results_false_left (a : Option Bool) :
    combine_results (some false) a = some false := by
  cases a <;> simp [combine_results]

lemma combine_results_false_right (a : Option Bool) :
    combine_results a (some false) = some false := by
  cases a <;> simp [combine_results]

lemma combine_results_none_right (a : Option Bool) :
    combine_results a none = a := by
  cases a <;> rfl

lemma foldl_combine_from_false (l : List (Option Bool)) :
    l.foldl combine_results (some false) = some false := by
  induction l with
  | nil => rfl
  | cons x l ih => simpa [combine_results_false_left] using ih

lemma foldl_combine_from_true (l : List (Option Bool))
    (h : some false ∉ l) :
    l.foldl combine_results (some true) = some true := by
  induction l with
  | nil => rfl
  | cons x l ih =>
    have hx : x ≠ some false := fun hx => h (hx ▸ List.mem_cons_self x l)
    have htail : some false ∉ l := fun hm => h (List.mem_cons_of_mem x hm)
    have hcx : combine_results (some true) x = some true := by
      cases x with
      | none => rfl
      | some b => cases b with
        | true => rfl
        | false => exact absurd rfl hx
    simpa [List.foldl, hcx] using ih htail

/-- C1. The verdict-combination operator combine_results is commutative over
the tri-state verdicts, Unknown (none) is its two-sided identity, and the
left fold with initial accumulator Unknown (exactly the
functools.reduce(combine_results, verdicts, None) of
NormalAndExtendedChecks) yields Fail whenever the sequence contains a Fail,
Unknown when every element is Unknown, and Pass when the sequence contains
no Fail and at least one Pass. -/
theorem combine_results_algebra :
    (∀ a b : Option Bool, combine_results a b = combine_results b a) ∧
    (∀ a : Option Bool,
      combine_results none a = a ∧ combine_results a none = a) ∧
    (∀ l : List (Option Bool), some false ∈ l →
      l.foldl combine_results none = some false) ∧
    (∀ l : List (Option Bool), (∀ x ∈ l, x = none) →
      l.foldl combine_results none = none) ∧
    (∀ l : List (Option Bool), some false ∉ l → some true ∈ l →
      l.foldl combine_results none = some true) := by
  refine ⟨by decide, fun a => ⟨rfl, combine_results_none_right a⟩, ?_, ?_, ?_⟩
  · intro l hmem
    induction l with
    | nil => exact absurd hmem (List.not_mem_nil _)
    | cons x l ih =>
      rcases List.mem_cons.mp hmem with hx | hl
      · subst hx
        simpa [List.foldl, combine_results] using foldl_combine_from_false l
      · cases x with
        | none => simpa [List.foldl, combine_results] using ih hl
        | some b =>
          cases b with
          | false =>
            simpa [List.foldl, combine_results] using foldl_combine_from_false l
          | true =>
            have : l.foldl combine_results (some true) = some false := by
              have h0 := ih hl
              -- refold from the accumulator some true: a Fail in the tail
              -- still forces Fail
              clear ih hmem h0
              induction l with
              | nil => exact absurd hl (List.not_mem_nil _)
              | cons y l ihy =>
                rcases List.mem_cons.mp hl with hy | hl2
                · subst hy
                  simpa [List.foldl, combine_results] using
                    foldl_combine_from_false l
                · cases y with
                  | none => simpa [List.foldl, combine_results] using ihy hl2
                  | some c =>
                    cases c with
                    | false =>
                      simpa [List.foldl, combine_results] using
                        foldl_combine_from_false l
                    | true => simpa [List.foldl, combine_results] using ihy hl2
            simpa [List.foldl, combine_results] using this
  · intro l hall
    induction l with
    | nil => rfl
    | cons x l ih =>
      have hx : x = none := hall x (List.mem_cons_self x l)
      subst hx
      exact ih fun y hy => hall y (List.mem_cons_of_mem _ hy)
  · intro l hnf hmem
    induction l with
    | nil => exact absurd hmem (List.not_mem_nil _)
    | cons x l ih =>
      have htail : some false ∉ l := fun hm => hnf (List.mem_cons_of_mem x hm)
      rcases List.mem_cons.mp hmem with hx | hl
      · subst hx
        simpa [List.foldl, combine_results] using foldl_combine_from_true l htail
      · cases x with
        | none => simpa [List.foldl, combine_results] using ih htail hl
        | some b =>
          cases b with
          | false => exact absurd (List.mem_cons_self _ _) hnf
          | true =>
            simpa [List.foldl, combine_results] using
              foldl_combine_from_true l htail

/-- Witness for combine_results_algebra: the fold clauses evaluated on
concrete verdict sequences. -/
theorem combine_results_algebra_witness :
    ([some true, some false, none].foldl combine_results none = some false) ∧
    ([none, none].foldl combine_results none = none) ∧
    ([none, some true].foldl combine_results none = some true) :=
  ⟨combine_results_algebra.2.2.1 _ (by decide),
   combine_results_algebra.2.2.2.1 _ (by decide),
   combine_results_algebra.2.2.2.2 _ (by decide) (by decide)⟩

/-! Blink regime, src/hardware.py Hardware.__get_blink_state lines 102-115.
The source reads time.time() internally; the embedding passes the current
time explicitly as its first argument. -/

/-- Hardware.__get_blink_state translated from src/hardware.py: compare
last_failure_time + window against current_time with non-strict
inequalities, in the order hour, day, week, else steady on. -/
def get_blink_state (current_time last_failure_time : ℚ) : Bool :=
  let hour : ℚ := 60 * 60
  let day : ℚ := 24 * hour
  let week : ℚ := 7 * day
  if last_failure_time + hour ≥ current_time then
    decide (pyRound (current_time * 10) % 2 > 0)
  else if last_failure_time + day ≥ current_time then
    decide (pyRound current_time % 2 > 0)
  else if last_failure_time + week ≥ current_time then
    decide (pyRound (current_time * 10) % 20 > 0)
  else true

/-- Modelled from the spec: the blink regime exactly as claim C5 words it,
with strict windows on elapsed = now - lastFailureTime (elapsed < 1 hour
fast, else elapsed < 1 day slow, else elapsed < 1 week slow with long
pause, else steady on). Used only to compare against get_blink_state. -/
def specBlinkStrict (now last_failure_time : ℚ) : Bool :=
  let elapsed := now - last_failure_time
  if elapsed < 3600 then decide (pyRound (now * 10) % 2 ≠ 0)
  else if elapsed < 86400 then decide (pyRound now % 2 ≠ 0)
  else if elapsed < 604800 then decide (pyRound (now * 10) % 20 ≠ 0)
  else true

lemma emod_pos_iff (n k : ℤ) (hk : k ≠ 0) : 0 < n % k ↔ n % k ≠ 0 := by
  have h := Int.emod_nonneg n hk
  omega

/-- C5 counterexample. At lastFailureTime = 0.1 and now = 3600.1 the
elapsed time is exactly one hour: the code is still in the fast regime
(its window test is non-strict) and lights the LED, while the claim's
strict window puts this instant in the slow regime, whose formula gives
off. -/
theorem blink_boundary_cex :
    get_blink_state (36001 / 10) (1 / 10) = true ∧
    specBlinkStrict (36001 / 10) (1 / 10) = false := by
  have hf1 : ⌊(36001 : ℚ) / 10 * 10⌋ = 36001 := by
    rw [show (36001 : ℚ) / 10 * 10 = 36001 by norm_num, Int.floor_eq_iff]
    norm_num
  have hr1 : pyRound ((36001 : ℚ) / 10 * 10) = 36001 := by
    simp only [pyRound, hf1]
    norm_num
  have hf2 : ⌊(36001 : ℚ) / 10⌋ = 3600 := by
    rw [Int.floor_eq_iff]
    norm_num
  have hr2 : pyRound ((36001 : ℚ) / 10) = 3600 := by
    simp only [pyRound, hf2]
    norm_num
  constructor
  · simp only [get_blink_state]
    rw [if_pos (by norm_num : (1 : ℚ) / 10 + 60 * 60 ≥ 36001 / 10), hr1]
    decide
  · simp only [specBlinkStrict]
    rw [if_neg (by norm_num : ¬ ((36001 : ℚ) / 10 - 1 / 10 < 3600)),
      if_pos (by norm_num : (36001 : ℚ) / 10 - 1 / 10 < 86400), hr2]
    decide

/-- C5 amended. The blink regime of Hardware.__get_blink_state is a pure
function of elapsed = now - lastFailureTime with NON-STRICT window bounds:
elapsed ≤ 1 hour gives the fast toggle (on iff round(now*10) mod 2 ≠ 0),
else elapsed ≤ 1 day the slow toggle (on iff round(now) mod 2 ≠ 0), else
elapsed ≤ 1 week the slow toggle with long pause (on iff
round(now*10) mod 20 ≠ 0), else steady on; elapsed = 0 falls in the fast
regime, elapsed = 2 days in the slow-long-pause regime, and elapsed =
2 weeks is steady on. -/
theorem blink_regime (now lf : ℚ) :
    (get_blink_state now lf =
      if now - lf ≤ 3600 then decide (pyRound (now * 10) % 2 ≠ 0)
      else if now - lf ≤ 86400 then decide (pyRound now % 2 ≠ 0)
      else if now - lf ≤ 604800 then decide (pyRound (now * 10) % 20 ≠ 0)
      else true) ∧
    get_blink_state lf lf = decide (pyRound (lf * 10) % 2 ≠ 0) ∧
    get_blink_state (lf + 172800) lf =
      decide (pyRound ((lf + 172800) * 10) % 20 ≠ 0) ∧
    get_blink_state (lf + 1209600) lf = true := by
  refine ⟨?_, ?_, ?_, ?_⟩
  · by_cases h1 : lf + 60 * 60 ≥ now
    · have h1' : now - lf ≤ 3600 := by linarith
      simp [get_blink_state, h1, h1', decide_eq_decide,
        emod_pos_iff _ 2 (by norm_num)]
    · have h1' : ¬ (now - lf ≤ 3600) := by intro h; exact h1 (by linarith)
      by_cases h2 : lf + 24 * (60 * 60) ≥ now
      · have h2' : now - lf ≤ 86400 := by linarith
        simp [get_blink_state, h1, h1', h2, h2', decide_eq_decide,
          emod_pos_iff _ 2 (by norm_num)]
      · have h2' : ¬ (now - lf ≤ 86400) := by intro h; exact h2 (by linarith)
        by_cases h3 : lf + 7 * (24 * (60 * 60)) ≥ now
        · have h3' : now - lf ≤ 604800 := by linarith
          simp [get_blink_state, h1, h1', h2, h2', h3, h3', decide_eq_decide,
            emod_pos_iff _ 20 (by norm_num)]
        · have h3' : ¬ (now - lf ≤ 604800) := by
            intro h; exact h3 (by linarith)
          simp [get_blink_state, h1, h1', h2, h2', h3, h3']
  · have h : lf + 60 * 60 ≥ lf := by linarith
    simp [get_blink_state, h, decide_eq_decide, emod_pos_iff _ 2 (by norm_num)]
  · have h1 : ¬ (lf + 60 * 60 ≥ lf + 172800) := by intro h; linarith
    have h2 : ¬ (lf + 24 * (60 * 60) ≥ lf + 172800) := by intro h; linarith
    have h3 : lf + 7 * (24 * (60 * 60)) ≥ lf + 172800 := by linarith
    simp [get_blink_state, h1, h2, h3, decide_eq_decide,
      emod_pos_iff _ 20 (by norm_num)]
  · have h1 : ¬ (lf + 60 * 60 ≥ lf + 1209600) := by intro h; linarith
    have h2 : ¬ (lf + 24 * (60 * 60) ≥ lf + 1209600) := by intro h; linarith
    have h3 : ¬ (lf + 7 * (24 * (60 * 60)) ≥ lf + 1209600) := by
      intro h; linarith
    simp [get_blink_state, h1, h2, h3]

/-! Shared test state and LED refresh, src/hardware.py. -/

/-- Test batch kinds, TestObserver.TestType in src/networkstatus.py. -/
inductive TestType
  | normal
  | extended
deriving DecidableEq

/-- Hardware.TestState.__init__, src/hardware.py lines 30-41. The result
fields hold whatever value notify_test_completed stores, which is the
tri-state fold of verdicts, hence Option Bool; Python initialises them to
True. -/
structure TestState where
  normal_test_result : Option Bool
  extended_test_result : Option Bool
  scheduled_normal_test : Bool
  scheduled_extended_test : Bool
  last_normal_test_failure_time : ℚ
  last_extended_test_failure_time : ℚ
  normal_test_running : Bool
  extended_test_running : Bool
  last_normal_test_started_time : ℚ
  last_extended_test_started_time : ℚ
deriving DecidableEq

/-- The state built by Hardware.TestState.__init__. -/
def initTestState : TestState :=
  { normal_test_result := some true
    extended_test_result := some true
    scheduled_normal_test := true
    scheduled_extended_test := true
    last_normal_test_failure_time := 0
    last_extended_test_failure_time := 0
    normal_test_running := false
    extended_test_running := false
    last_normal_test_started_time := 0
    last_extended_test_started_time := 0 }

/-- The five GPIO outputs written by Hardware.__update_leds. -/
structure LedOutputs where
  normal_pass : Bool
  normal_fail : Bool
  extended_pass : Bool
  extended_fail : Bool
  test_running : Bool
deriving DecidableEq

/-- Hardware.__update_leds, src/hardware.py lines 120-152, as a function of
the current time and the test state it reads. GPIO.output receives Python
truthiness of the given expression. -/
def update_leds (current_time : ℚ) (test_state : TestState) : LedOutputs :=
  let min_test_running_led_time : ℚ := 1
  let normal_blink_state :=
    get_blink_state current_time test_state.last_normal_test_failure_time
  let extended_blink_state :=
    get_blink_state current_time test_state.last_extended_test_failure_time
  { normal_pass := normal_blink_state &&
      truthy test_state.normal_test_result &&
      !test_state.scheduled_normal_test
    normal_fail := !truthy test_state.normal_test_result &&
      !test_state.scheduled_normal_test
    extended_pass := extended_blink_state &&
      truthy test_state.extended_test_result &&
      !test_state.scheduled_extended_test
    extended_fail := !truthy test_state.extended_test_result &&
      !test_state.scheduled_extended_test
    test_running := test_state.normal_test_running ||
      test_state.extended_test_running ||
      decide (test_state.last_normal_test_started_time +
        min_test_running_led_time ≥ current_time) ||
      decide (test_state.last_extended_test_started_time +
        min_test_running_led_time ≥ current_time) }

/-- The state mutations of src/hardware.py: notify_test_started (lines
67-81), notify_test_completed (lines 83-100), and the two scheduled-flag
writes inside get_user_input (lines 160-179). Times are the time.time()
values read inside each routine. -/
inductive Notification
  | started (kind : TestType) (now : ℚ)
  | completed (kind : TestType) (result : Option Bool) (now : ℚ)
  | buttonPressNormal
  | buttonHoldExtended

/-- One state mutation applied to the shared TestState (under its lock in
the source). In notify_test_completed the failure time is written only when
the result is falsy (if not result). -/
def stepState (s : TestState) : Notification → TestState
  | .started .normal t =>
      { s with normal_test_running := true, last_normal_test_started_time := t }
  | .started .extended t =>
      { s with extended_test_running := true,
               last_extended_test_started_time := t }
  | .completed .normal r t =>
      { s with normal_test_result := r
               normal_test_running := false
               scheduled_normal_test := false
               last_normal_test_failure_time :=
                 if truthy r then s.last_normal_test_failure_time else t }
  | .completed .extended r t =>
      { s with extended_test_result := r
               extended_test_running := false
               scheduled_extended_test := false
               last_extended_test_failure_time :=
                 if truthy r then s.last_extended_test_failure_time else t }
  | .buttonPressNormal => { s with scheduled_normal_test := true }
  | .buttonHoldExtended => { s with scheduled_extended_test := true }

/-- The state after a sequence of notifications starting from process
start. -/
def runNotifications (l : List Notification) : TestState :=
  l.foldl stepState initTestState

lemma truthy_eq_decide (r : Option Bool) :
    truthy r = decide (r = some true) := by
  cases r with
  | none => rfl
  | some b => cases b <;> rfl

/-- C3 counterexample state: the state reached from process start by the
single notification notify_test_completed(NORMAL, None) at time 5 — the
overall verdict of a batch whose verdicts are all Unknown. -/
def unknownVerdictState : TestState :=
  stepState initTestState (.completed .normal none 5)

/-- C3 counterexample. In unknownVerdictState the stored normal verdict is
Unknown, not Fail, and the scheduled flag is down, yet a refresh lights the
normal Fail indicator (Python: not None is True), contradicting the claim
that the Fail indicator equals (last verdict == Fail) AND NOT scheduled. -/
theorem update_leds_fail_unknown_cex :
    (update_leds 10 unknownVerdictState).normal_fail = true ∧
    unknownVerdictState.normal_test_result ≠ some false ∧
    unknownVerdictState.scheduled_normal_test = false ∧
    (decide (unknownVerdictState.normal_test_result = some false) &&
      !unknownVerdictState.scheduled_normal_test) = false := by
  refine ⟨rfl, by decide, rfl, by decide⟩

/-- C3 amended. On every LED refresh the five outputs are computed exactly
as: Pass indicator for a kind = blink regime on AND last verdict == Pass
AND NOT scheduled flag; Fail indicator = last verdict ≠ Pass (i.e. Fail or
Unknown) AND NOT scheduled flag, with no blinking; Running indicator =
normal running OR extended running OR now ≤ last start time + 1 for either
kind. -/
theorem update_leds_formula (now : ℚ) (s : TestState) :
    update_leds now s =
      { normal_pass := get_blink_state now s.last_normal_test_failure_time &&
          decide (s.normal_test_result = some true) &&
          !s.scheduled_normal_test
        normal_fail := decide (¬ s.normal_test_result = some true) &&
          !s.scheduled_normal_test
        extended_pass :=
          get_blink_state now s.last_extended_test_failure_time &&
          decide (s.extended_test_result = some true) &&
          !s.scheduled_extended_test
        extended_fail := decide (¬ s.extended_test_result = some true) &&
          !s.scheduled_extended_test
        test_running := s.normal_test_running || s.extended_test_running ||
          decide (now ≤ s.last_normal_test_started_time + 1) ||
          decide (now ≤ s.last_extended_test_started_time + 1) } := by
  simp only [update_leds, truthy_eq_decide, ← decide_not, ge_iff_le]

lemma stepState_scheduled_normal (s : TestState) (n : Notification)
    (hn : ∀ r t, n ≠ .completed .normal r t) :
    (stepState s n).scheduled_normal_test = true ∨
    (stepState s n).scheduled_normal_test = s.scheduled_normal_test := by
  cases n with
  | started k t => cases k <;> right <;> rfl
  | completed k r t =>
    cases k with
    | normal => exact absurd rfl (hn r t)
    | extended => right; rfl
  | buttonPressNormal => left; rfl
  | buttonHoldExtended => right; rfl

lemma stepState_scheduled_extended (s : TestState) (n : Notification)
    (hn : ∀ r t, n ≠ .completed .extended r t) :
    (stepState s n).scheduled_extended_test = true ∨
    (stepState s n).scheduled_extended_test = s.scheduled_extended_test := by
  cases n with
  | started k t => cases k <;> right <;> rfl
  | completed k r t =>
    cases k with
    | normal => right; rfl
    | extended => exact absurd rfl (hn r t)
  | buttonPressNormal => right; rfl
  | buttonHoldExtended => left; rfl

lemma foldl_scheduled_normal (l : List Notification) (s : TestState)
    (hs : s.scheduled_normal_test = true)
    (hl : ∀ r t, Notification.completed .normal r t ∉ l) :
    (l.foldl stepState s).scheduled_normal_test = true := by
  induction l generalizing s with
  | nil => exact hs
  | cons n l ih =>
    have hn : ∀ r t, n ≠ Notification.completed .normal r t := by
      intro r t he
      exact hl r t (he ▸ List.mem_cons_self n l)
    have htail : ∀ r t, Notification.completed .normal r t ∉ l :=
      fun r t hm => hl r t (List.mem_cons_of_mem n hm)
    refine ih _ ?_ htail
    rcases stepState_scheduled_normal s n hn with h | h
    · exact h
    · exact h.trans hs

lemma foldl_scheduled_extended (l : List Notification) (s : TestState)
    (hs : s.scheduled_extended_test = true)
    (hl : ∀ r t, Notification.completed .extended r t ∉ l) :
    (l.foldl stepState s).scheduled_extended_test = true := by
  induction l generalizing s with
  | nil => exact hs
  | cons n l ih =>
    have hn : ∀ r t, n ≠ Notification.completed .extended r t := by
      intro r t he
      exact hl r t (he ▸ List.mem_cons_self n l)
    have htail : ∀ r t, Notification.completed .extended r t ∉ l :=
      fun r t hm => hl r t (List.mem_cons_of_mem n hm)
    refine ih _ ?_ htail
    rcases stepState_scheduled_extended s n hn with h | h
    · exact h
    · exact h.trans hs

/-- C4. For each batch kind the scheduled flag is true from process start
for as long as no completion notification for that kind has arrived, any
completion notification for the kind immediately clears it, in every state
with the flag set a refresh drives that kind's Pass and Fail indicators
off regardless of the stored verdict, and immediately after process start
a refresh leaves all four Pass/Fail indicators off. -/
theorem scheduled_suppression :
    (∀ l : List Notification,
      (∀ r t, Notification.completed .normal r t ∉ l) →
      (runNotifications l).scheduled_normal_test = true) ∧
    (∀ l : List Notification,
      (∀ r t, Notification.completed .extended r t ∉ l) →
      (runNotifications l).scheduled_extended_test = true) ∧
    (∀ s r t,
      (stepState s (.completed .normal r t)).scheduled_normal_test = false) ∧
    (∀ s r t,
      (stepState s (.completed .extended r t)).scheduled_extended_test
        = false) ∧
    (∀ now s, s.scheduled_normal_test = true →
      (update_leds now s).normal_pass = false ∧
      (update_leds now s).normal_fail = false) ∧
    (∀ now s, s.scheduled_extended_test = true →
      (update_leds now s).extended_pass = false ∧
      (update_leds now s).extended_fail = false) ∧
    (∀ now, (update_leds now initTestState).normal_pass = false ∧
      (update_leds now initTestState).normal_fail = false ∧
      (update_leds now initTestState).extended_pass = false ∧
      (update_leds now initTestState).extended_fail = false) := by
  refine ⟨fun l hl => foldl_scheduled_normal l _ rfl hl,
    fun l hl => foldl_scheduled_extended l _ rfl hl,
    fun s r t => rfl, fun s r t => rfl, ?_, ?_, ?_⟩
  · intro now s hs
    constructor <;> simp [update_leds, hs]
  · intro now s hs
    constructor <;> simp [update_leds, hs]
  · intro now
    refine ⟨?_, ?_, ?_, ?_⟩ <;> simp [update_leds, initTestState, truthy]

/-- Witness for scheduled_suppression: a started notification and a button
press leave the scheduled flags up, a completion clears them, and a
refresh of a scheduled state keeps its indicators dark. -/
theorem scheduled_suppression_witness :
    (runNotifications [.started .normal 1,
      .buttonPressNormal]).scheduled_normal_test = true ∧
    (runNotifications [.started .extended 1]).scheduled_extended_test
      = true ∧
    (update_leds 2 initTestState).normal_pass = false ∧
    (update_leds 2 initTestState).normal_fail = false := by
  have hmem1 : ∀ r t, Notification.completed .normal r t ∉
      ([.started .normal 1, .buttonPressNormal] : List Notification) := by
    intro r t hm
    simp [List.mem_cons] at hm
  have hmem2 : ∀ r t, Notification.completed .extended r t ∉
      ([.started .extended 1] : List Notification) := by
    intro r t hm
    simp [List.mem_cons] at hm
  refine ⟨scheduled_suppression.1 _ hmem1,
    scheduled_suppression.2.1 _ hmem2, ?_, ?_⟩
  · exact (scheduled_suppression.2.2.2.2.1 2 initTestState rfl).1
  · exact (scheduled_suppression.2.2.2.2.1 2 initTestState rfl).2

/-! Button classification, Hardware.get_user_input, src/hardware.py lines
154-185. -/

/-- Hardware.UserInput. -/
inductive UserInput
  | noInput
  | normalTest
  | extendedTest
deriving DecidableEq

/-- The externally visible actions of get_user_input, in source order:
the two scheduled-flag writes (performed under the state lock), the
self.__update_leds() calls, and the return of a classification. -/
inductive BtnEvent
  | setScheduledNormal
  | setScheduledExtended
  | ledRefresh
  | emit (u : UserInput)
deriving DecidableEq

/-- One iteration of the polling loop observes the current time.time()
value and the GPIO.input level of the RUN_TEST button (the several time
reads of a single iteration are modelled as one value). -/
structure Poll where
  t : ℚ
  pressed : Bool

/-- The while-True loop of Hardware.get_user_input as a function of the
sequence of poll observations. The Option argument is user_input_time
(None until the initial press is observed); button_push_time_for
_extended_test is 3. Returns the performed events and the returned
classification, none when the observations run out before the loop
returns. -/
def user_input_loop (timeout_time : ℚ) :
    Option ℚ → List Poll → List BtnEvent × Option UserInput
  | _, [] => ([], none)
  | none, p :: rest =>
    if p.pressed then
      let r := user_input_loop timeout_time (some p.t) rest
      (BtnEvent.setScheduledNormal :: BtnEvent.ledRefresh :: r.1, r.2)
    else if p.t ≥ timeout_time then
      ([BtnEvent.emit .noInput], some .noInput)
    else user_input_loop timeout_time none rest
  | some t0, p :: rest =>
    if !p.pressed then ([BtnEvent.emit .normalTest], some .normalTest)
    else if p.t ≥ t0 + 3 then
      ([BtnEvent.setScheduledExtended, BtnEvent.ledRefresh,
        BtnEvent.emit .extendedTest], some .extendedTest)
    else user_input_loop timeout_time (some t0) rest

/-- Hardware.get_user_input(timeout): timeout_time = time.time() + timeout
is fixed before the loop starts. -/
def get_user_input (start_time timeout : ℚ) (polls : List Poll) :
    List BtnEvent × Option UserInput :=
  user_input_loop (start_time + timeout) none polls

lemma user_input_loop_skip_idle (timeout_time : ℚ) (pre l : List Poll)
    (h : ∀ p ∈ pre, p.pressed = false ∧ p.t < timeout_time) :
    user_input_loop timeout_time none (pre ++ l) =
      user_input_loop timeout_time none l := by
  induction pre with
  | nil => rfl
  | cons p pre ih =>
    obtain ⟨hp, ht⟩ := h p (List.mem_cons_self p pre)
    have hnt : ¬ (p.t ≥ timeout_time) := not_le.mpr ht
    simp only [List.cons_append, user_input_loop, hp, if_neg hnt]
    simp only [Bool.false_eq_true, if_false]
    exact ih fun q hq => h q (List.mem_cons_of_mem p hq)

lemma user_input_loop_skip_held (timeout_time t0 : ℚ) (mid l : List Poll)
    (h : ∀ p ∈ mid, p.pressed = true ∧ p.t < t0 + 3) :
    user_input_loop timeout_time (some t0) (mid ++ l) =
      user_input_loop timeout_time (some t0) l := by
  induction mid with
  | nil => rfl
  | cons p mid ih =>
    obtain ⟨hp, ht⟩ := h p (List.mem_cons_self p mid)
    have hnt : ¬ (p.t ≥ t0 + 3) := not_le.mpr ht
    simp only [List.cons_append, user_input_loop, hp, Bool.not_true,
      Bool.false_eq_true, if_false, if_neg hnt]
    exact ih fun q hq => h q (List.mem_cons_of_mem p hq)

/-- C2. Hold threshold 3 s. Over any run of get_user_input(timeout) whose
poll observations consist of an unpressed prefix within the timeout window
followed by the initially observed press at t0: (1) if the button is then
seen held, each time strictly before t0+3, and a release is observed
before t0+3, the call returns NormalTest; (2) if the button is seen held
until a poll at a time at least t0+3, the call sets
scheduled_extended_test and refreshes the LEDs strictly before returning
ExtendedTest; (3) if instead no press is ever observed and a poll reaches
the timeout, the call returns NoInput; (4) upon the initially observed
press the call sets scheduled_normal_test, refreshes the LEDs, and
continues polling in the pressed state. -/
theorem get_user_input_classification (start_time timeout t0 t1 : ℚ)
    (pre mid rest : List Poll)
    (hpre : ∀ p ∈ pre, p.pressed = false ∧ p.t < start_time + timeout)
    (hmid : ∀ p ∈ mid, p.pressed = true ∧ p.t < t0 + 3) :
    (t1 < t0 + 3 →
      get_user_input start_time timeout
          (pre ++ ⟨t0, true⟩ :: (mid ++ ⟨t1, false⟩ :: rest)) =
        ([.setScheduledNormal, .ledRefresh, .emit .normalTest],
          some .normalTest)) ∧
    (t1 ≥ t0 + 3 →
      get_user_input start_time timeout
          (pre ++ ⟨t0, true⟩ :: (mid ++ ⟨t1, true⟩ :: rest)) =
        ([.setScheduledNormal, .ledRefresh, .setScheduledExtended,
          .ledRefresh, .emit .extendedTest], some .extendedTest)) ∧
    (t1 ≥ start_time + timeout →
      get_user_input start_time timeout (pre ++ ⟨t1, false⟩ :: rest) =
        ([.emit .noInput], some .noInput)) ∧
    (get_user_input start_time timeout (pre ++ ⟨t0, true⟩ :: rest) =
      (BtnEvent.setScheduledNormal :: BtnEvent.ledRefresh ::
          (user_input_loop (start_time + timeout) (some t0) rest).1,
        (user_input_loop (start_time + timeout) (some t0) rest).2)) := by
  refine ⟨?_, ?_, ?_, ?_⟩
  · intro ht1
    unfold get_user_input
    rw [user_input_loop_skip_idle _ _ _ hpre]
    simp only [user_input_loop, if_pos rfl, if_true]
    rw [user_input_loop_skip_held _ _ _ _ hmid]
    simp [user_input_loop]
  · intro ht1
    unfold get_user_input
    rw [user_input_loop_skip_idle _ _ _ hpre]
    simp only [user_input_loop, if_pos rfl, if_true]
    rw [user_input_loop_skip_held _ _ _ _ hmid]
    simp [user_input_loop, ht1]
  · intro ht1
    unfold get_user_input
    rw [user_input_loop_skip_idle _ _ _ hpre]
    simp [user_input_loop, ht1]
  · unfold get_user_input
    rw [user_input_loop_skip_idle _ _ _ hpre]
    simp [user_input_loop]

/-- Witness for get_user_input_classification: a concrete run with polls
at 0 (idle), press at 1, held at 2, released at 5/2 classifies as
NormalTest; the analogous held run reaching 4 classifies as ExtendedTest
with the scheduled-extended write before the emission; an idle run
reaching time 10 returns NoInput. -/
theorem get_user_input_classification_witness :
    (get_user_input 0 10
        ([⟨0, false⟩] ++ ⟨1, true⟩ :: ([⟨2, true⟩] ++ ⟨5/2, false⟩ :: [])) =
      ([.setScheduledNormal, .ledRefresh, .emit .normalTest],
        some .normalTest)) ∧
    (get_user_input 0 10
        ([⟨0, false⟩] ++ ⟨1, true⟩ :: ([⟨2, true⟩] ++ ⟨4, true⟩ :: [])) =
      ([.setScheduledNormal, .ledRefresh, .setScheduledExtended,
        .ledRefresh, .emit .extendedTest], some .extendedTest)) ∧
    (get_user_input 0 10 ([⟨0, false⟩] ++ ⟨10, false⟩ :: []) =
      ([.emit .noInput], some .noInput)) := by
  have hpre : ∀ p ∈ ([⟨0, false⟩] : List Poll),
      p.pressed = false ∧ p.t < (0 : ℚ) + 10 := by
    intro p hp
    rw [List.mem_singleton] at hp
    subst hp
    exact ⟨rfl, by norm_num⟩
  have hmid : ∀ p ∈ ([⟨2, true⟩] : List Poll),
      p.pressed = true ∧ p.t < (1 : ℚ) + 3 := by
    intro p hp
    rw [List.mem_singleton] at hp
    subst hp
    exact ⟨rfl, by norm_num⟩
  refine ⟨(get_user_input_classification 0 10 1 (5/2) _ _ _ hpre hmid).1
      (by norm_num),
    (get_user_input_classification 0 10 1 4 _ _ _ hpre hmid).2.1
      (by norm_num),
    (get_user_input_classification 0 10 1 10 _ _ _ hpre hmid).2.2.1
      (by norm_num)⟩

/-! Composable checks and the dual-cadence scheduler,
src/networkstatus.py. -/

/-- A status check as consumed by the scheduler: a leaf whose check() call
yields the given value string and verdict list and whose num_columns() is
cols, or MultipleChecks (src/networkstatus.py lines 372-393) over an
ordered list of children. -/
inductive Check
  | leaf (value : String) (verdicts : List (Option Bool)) (cols : ℕ)
  | multi (children : List Check)

/-- Python ','.join. -/
def joinComma : List String → String
  | [] => ""
  | [s] => s
  | s :: rest => s ++ "," ++ joinComma rest

mutual

/-- The value-string component of check(): combine_checks (lines 356-369)
joins the children's value strings with commas. -/
def Check.checkValue : Check → String
  | .leaf v _ _ => v
  | .multi cs => joinComma (checkValuesList cs)

def checkValuesList : List Check → List String
  | [] => []
  | c :: cs => c.checkValue :: checkValuesList cs

end

mutual

/-- The verdict component of check(): combine_checks flattens the
children's verdict lists in order. -/
def Check.checkVerdicts : Check → List (Option Bool)
  | .leaf _ vs _ => vs
  | .multi cs => (checkVerdictsList cs).join

def checkVerdictsList : List Check → List (List (Option Bool))
  | [] => []
  | c :: cs => c.checkVerdicts :: checkVerdictsList cs

end

mutual

/-- num_columns: a leaf declares its arity, MultipleChecks sums its
children (lines 392-393). -/
def Check.num_columns : Check → ℕ
  | .leaf _ _ n => n
  | .multi cs => numColumnsList cs

def numColumnsList : List Check → ℕ
  | [] => 0
  | c :: cs => c.num_columns + numColumnsList cs

end

/-- The number of comma-separated fields of a value string: one more than
its comma count (what splitting the CSV row yields). -/
def countFields (s : String) : ℕ := s.data.count ',' + 1

lemma countFields_append_comma (s t : String) :
    countFields (s ++ "," ++ t) = countFields s + countFields t := by
  have hd : (s ++ "," ++ t).data = s.data ++ ',' :: t.data := by
    rw [String.data_append, String.data_append, List.append_assoc]
    rfl
  simp only [countFields, hd, List.count_append, List.count_cons_self]
  omega

lemma countFields_pos (s : String) : 1 ≤ countFields s :=
  Nat.le_add_left 1 _

lemma countFields_joinComma (l : List String) (hl : l ≠ []) :
    countFields (joinComma l) = (l.map countFields).sum := by
  induction l with
  | nil => exact absurd rfl hl
  | cons s l ih =>
    cases l with
    | nil => simp [joinComma]
    | cons s2 l2 =>
      have : joinComma (s :: s2 :: l2) = s ++ "," ++ joinComma (s2 :: l2) :=
        rfl
      rw [this, countFields_append_comma, ih (List.cons_ne_nil s2 l2)]
      simp

lemma countFields_skip_extended (n : ℕ) (hn : 1 ≤ n) :
    countFields (joinComma (List.replicate n "")) = n := by
  rw [countFields_joinComma _ (by
    intro h
    rw [List.replicate_eq_nil] at h
    omega)]
  have hmap : (List.replicate n "").map countFields =
      List.replicate n (countFields "") := List.map_replicate
  rw [hmap]
  simp [countFields, List.sum_replicate]

lemma checkValuesList_eq_map (cs : List Check) :
    checkValuesList cs = cs.map Check.checkValue := by
  induction cs with
  | nil => rfl
  | cons c cs ih => simp [checkValuesList, ih]

lemma numColumnsList_eq_sum (cs : List Check) :
    numColumnsList cs = (cs.map Check.num_columns).sum := by
  induction cs with
  | nil => rfl
  | cons c cs ih => simp [numColumnsList, ih]

/-- Batch kind of an observer notification or evaluation performed by
NormalAndExtendedChecks (lines 404-453); observers are identified by their
position in the test_observers list. -/
inductive SchedEvent
  | evalChecks (kind : TestType)
  | notifyStarted (observer : ℕ) (kind : TestType)
  | notifyCompleted (observer : ℕ) (kind : TestType) (result : Option Bool)
deriving DecidableEq

/-- A Python for-loop over the observers appending body(x) per element. -/
def forEachEvents (xs : List ℕ) (body : ℕ → List SchedEvent) :
    List SchedEvent :=
  xs.foldl (fun acc x => acc ++ body x) []

lemma forEachEvents_eq_bind (xs : List ℕ) (body : ℕ → List SchedEvent) :
    forEachEvents xs body = xs.bind body := by
  suffices h : ∀ acc, xs.foldl (fun a x => a ++ body x) acc =
      acc ++ xs.bind body by
    simpa [forEachEvents] using h []
  induction xs with
  | nil => intro acc; simp
  | cons x xs ih => intro acc; simp [List.foldl, ih]

/-- NormalAndExtendedChecks.normal_check, lines 414-428: build the
placeholder fields, notify each observer that the Normal batch started,
evaluate the Normal composite, fold its verdicts, notify each observer of
completion, and return the Normal value string followed by the
placeholders. -/
def normal_check (nc ec : Check) (observers : List ℕ) :
    List SchedEvent × String :=
  let skip_extended := joinComma (List.replicate ec.num_columns "")
  let startEvents :=
    forEachEvents observers (fun o => [.notifyStarted o .normal])
  let results := (nc.checkValue, nc.checkVerdicts)
  let normal_tests_result := results.2.foldl combine_results none
  let completedEvents := forEachEvents observers
    (fun o => [.notifyCompleted o .normal normal_tests_result])
  (startEvents ++ [SchedEvent.evalChecks .normal] ++ completedEvents,
    results.1 ++ "," ++ skip_extended)

/-- NormalAndExtendedChecks.extended_check, lines 430-445: evaluate the
Normal composite, then notify each observer started(Normal) then
started(Extended), fold Normal's verdicts, evaluate the Extended
composite, fold its verdicts, notify each observer completed(Normal) then
completed(Extended), and return the two value strings joined. -/
def extended_check (nc ec : Check) (observers : List ℕ) :
    List SchedEvent × String :=
  let normal_results := (nc.checkValue, nc.checkVerdicts)
  let startEvents := forEachEvents observers
    (fun o => [.notifyStarted o .normal, .notifyStarted o .extended])
  let normal_tests_result := normal_results.2.foldl combine_results none
  let extended_results := (ec.checkValue, ec.checkVerdicts)
  let extended_tests_result := extended_results.2.foldl combine_results none
  let completedEvents := forEachEvents observers
    (fun o => [.notifyCompleted o .normal normal_tests_result,
      .notifyCompleted o .extended extended_tests_result])
  (SchedEvent.evalChecks .normal :: startEvents ++
      SchedEvent.evalChecks .extended :: completedEvents,
    normal_results.1 ++ "," ++ extended_results.1)

/-- C6. If each child check handed to NormalAndExtendedChecks reports a
value string with exactly num_columns() comma-separated fields, then both
normal_check() and extended_check() return value strings with exactly
NormalArity + ExtendedArity fields, normal_check() padding the Extended
positions with empty fields; moreover the hypothesis propagates through
MultipleChecks with at least one child. -/
theorem row_arity (nc ec : Check) (observers : List ℕ)
    (hn : countFields nc.checkValue = nc.num_columns)
    (he : countFields ec.checkValue = ec.num_columns) :
    (countFields (normal_check nc ec observers).2 =
      nc.num_columns + ec.num_columns ∧
      (normal_check nc ec observers).2 =
        nc.checkValue ++ "," ++
          joinComma (List.replicate ec.num_columns "")) ∧
    countFields (extended_check nc ec observers).2 =
      nc.num_columns + ec.num_columns ∧
    (∀ cs : List Check, cs ≠ [] →
      (∀ c ∈ cs, countFields c.checkValue = c.num_columns) →
      countFields (Check.multi cs).checkValue =
        (Check.multi cs).num_columns) := by
  have hepos : 1 ≤ ec.num_columns := he ▸ countFields_pos ec.checkValue
  refine ⟨⟨?_, rfl⟩, ?_, ?_⟩
  · show countFields (nc.checkValue ++ "," ++
      joinComma (List.replicate ec.num_columns "")) = _
    rw [countFields_append_comma, hn, countFields_skip_extended _ hepos]
  · show countFields (nc.checkValue ++ "," ++ ec.checkValue) = _
    rw [countFields_append_comma, hn, he]
  · intro cs hne hall
    show countFields (joinComma (checkValuesList cs)) = numColumnsList cs
    rw [checkValuesList_eq_map,
      countFields_joinComma _ (by simpa using hne),
      numColumnsList_eq_sum, List.map_map]
    congr 1
    exact List.map_congr_left fun c hc => hall c hc

/-- Witness for row_arity: a Normal composite of two single-column leaves
and an Extended composite of one two-column leaf. -/
theorem row_arity_witness :
    countFields (normal_check
      (Check.multi [Check.leaf "12.1" [some true] 1,
        Check.leaf "True" [none] 1])
      (Check.multi [Check.leaf "20,9" [some true, some false] 2])
      [0]).2 = 4 ∧
    countFields (extended_check
      (Check.multi [Check.leaf "12.1" [some true] 1,
        Check.leaf "True" [none] 1])
      (Check.multi [Check.leaf "20,9" [some true, some false] 2])
      [0]).2 = 4 := by
  have h := row_arity
    (Check.multi [Check.leaf "12.1" [some true] 1,
      Check.leaf "True" [none] 1])
    (Check.multi [Check.leaf "20,9" [some true, some false] 2])
    [0]
    (by decide) (by decide)
  exact ⟨h.1.1, h.2.1⟩

/-- C7. extended_check() performs, in exactly this order: evaluate the
Normal composite; notify each observer onStarted(Normal) then
onStarted(Extended); evaluate the Extended composite; notify each
observer onCompleted(Normal, fold of Normal verdicts) then
onCompleted(Extended, fold of Extended verdicts); and return the
concatenation of the Normal and Extended value strings. In the extended
path Normal's started notification therefore fires only after Normal has
been evaluated, unlike normal_check(), whose started notifications all
precede the Normal evaluation. -/
theorem extended_check_order (nc ec : Check) (observers : List ℕ) :
    extended_check nc ec observers =
      (SchedEvent.evalChecks .normal ::
        (observers.bind fun o => [SchedEvent.notifyStarted o .normal,
          SchedEvent.notifyStarted o .extended]) ++
        SchedEvent.evalChecks .extended ::
        (observers.bind fun o =>
          [SchedEvent.notifyCompleted o .normal
            (nc.checkVerdicts.foldl combine_results none),
          SchedEvent.notifyCompleted o .extended
            (ec.checkVerdicts.foldl combine_results none)]),
        nc.checkValue ++ "," ++ ec.checkValue) ∧
    (normal_check nc ec observers).1 =
      (observers.map fun o => SchedEvent.notifyStarted o .normal) ++
        SchedEvent.evalChecks .normal ::
        (observers.map fun o => SchedEvent.notifyCompleted o .normal
          (nc.checkVerdicts.foldl combine_results none)) := by
  constructor
  · simp [extended_check, forEachEvents_eq_bind]
  · have hmap : ∀ f : ℕ → SchedEvent,
        (observers.bind fun o => [f o]) = observers.map f := by
      intro f
      induction observers with
      | nil => rfl
      | cons x xs ih => simp [ih]
    simp [normal_check, forEachEvents_eq_bind, hmap]

/-! Outer scheduling loop, main in src/network-status-main.py lines
49-67. -/

/-- The lines main prints to standard output: the header line and a
timestamped data row, tagged with whether the row came from
extended_check. -/
inductive OutLine
  | header
  | dataRow (extended : Bool)
deriving DecidableEq

/-- The two timestamps maintained by main. -/
structure SchedState where
  last_normal_test : ℚ
  last_extended_test : ℚ
deriving DecidableEq

/-- One iteration of the while-True loop of main, given the time.time()
value of this cycle and the classification returned by
hardware.get_user_input: the emitted lines and the updated timestamps.
normal_test_interval = 60, extended_test_interval = 3600; inside the
batch branch last_normal_test is set to now, the header print and
last_extended_test update happen only in the extended sub-branch, and the
data row prints after the batch. -/
def mainCycle (s : SchedState) (current_time : ℚ) (user_input : UserInput) :
    List OutLine × SchedState :=
  let p :=
    if current_time ≥ s.last_normal_test + 60 ∨
        current_time ≥ s.last_extended_test + 3600 then
      if current_time ≥ s.last_extended_test + 3600 then
        ([OutLine.header, OutLine.dataRow true],
          { last_normal_test := current_time,
            last_extended_test := current_time })
      else
        ([OutLine.dataRow false], { s with last_normal_test := current_time })
    else ([], s)
  match user_input with
  | .noInput => p
  | .normalTest => (p.1, { p.2 with last_normal_test := 0 })
  | .extendedTest => (p.1, { last_normal_test := 0, last_extended_test := 0 })

/-- The output of the loop over a finite sequence of cycles, each cycle
described by its time.time() value and the button classification it
observes. -/
def mainLoop (s : SchedState) : List (ℚ × UserInput) → List OutLine
  | [] => []
  | (t, ui) :: rest => (mainCycle s t ui).1 ++ mainLoop (mainCycle s t ui).2 rest

/-- main starts with last_normal_test = 0 and last_extended_test = 0. -/
def initSchedState : SchedState := ⟨0, 0⟩

/-- C8 counterexample. A run of two cycles at times 10000 and 20000 (both
due for the extended batch, no button input) emits the header twice: the
header is printed before every extended batch, not exactly once per run. -/
theorem header_once_cex :
    (mainLoop initSchedState
      [(10000, .noInput), (20000, .noInput)]).count OutLine.header = 2 := by
  have h1 : mainCycle initSchedState 10000 .noInput =
      ([OutLine.header, OutLine.dataRow true], ⟨10000, 10000⟩) := by
    norm_num [mainCycle, initSchedState]
  have h2 : mainCycle (⟨10000, 10000⟩ : SchedState) 20000 .noInput =
      ([OutLine.header, OutLine.dataRow true], ⟨20000, 20000⟩) := by
    norm_num [mainCycle]
  simp [mainLoop, h1, h2]

/-- Checks that every header in the output is immediately followed by an
extended data row (in particular no header is the last line). -/
def headersPrecedeExtendedRows : List OutLine → Bool
  | [] => true
  | OutLine.header :: OutLine.dataRow true :: rest =>
      headersPrecedeExtendedRows rest
  | OutLine.header :: _ => false
  | _ :: rest => headersPrecedeExtendedRows rest

lemma mainCycle_lines (s : SchedState) (t : ℚ) (ui : UserInput) :
    (mainCycle s t ui).1 = [] ∨
    (mainCycle s t ui).1 = [OutLine.dataRow false] ∨
    (mainCycle s t ui).1 = [OutLine.header, OutLine.dataRow true] := by
  unfold mainCycle
  cases ui <;> split <;> first
    | (left; rfl)
    | (split
       · right; right; rfl
       · right; left; rfl)

/-- C8 amended. In every run of the outer loop a header line is emitted
immediately before every Extended batch's data row and nowhere else: each
header is immediately followed by an extended data row, and the number of
headers equals the number of extended data rows. In particular one header
immediately precedes the first Extended batch's data row, but a fresh
header is also printed before each subsequent Extended batch rather than
only once per run. -/
theorem header_before_extended (s : SchedState)
    (cycles : List (ℚ × UserInput)) :
    headersPrecedeExtendedRows (mainLoop s cycles) = true ∧
    (mainLoop s cycles).count OutLine.header =
      (mainLoop s cycles).count (OutLine.dataRow true) := by
  induction cycles generalizing s with
  | nil => exact ⟨rfl, rfl⟩
  | cons c rest ih =>
    obtain ⟨t, ui⟩ := c
    have hrest := ih (mainCycle s t ui).2
    rcases mainCycle_lines s t ui with h | h | h <;>
      simp [mainLoop, h, headersPrecedeExtendedRows, List.count_cons,
        hrest.1, hrest.2]

/-! Leaf checks, src/networkstatus.py. The underlying probes (ping,
dns_resolve) are external collaborators; a probe outcome is modelled as
what the leaf observes: success with a measured value, or an exception. -/

/-- A ping value string: str(t) for a measured time t in milliseconds, or
the sentinel string -1 (PingCheckBase.NO_PING). -/
inductive PingValue
  | time (ms : ℚ)
  | noPing
deriving DecidableEq

/-- PingCheck.do_check, lines 258-263: return str(ping(host)) and on any
exception return the sentinel -1. The probe argument is some t when
ping returns t and none when it raises. -/
def pingCheck_do_check (probe : Option ℚ) : PingValue :=
  match probe with
  | some t => .time t
  | none => .noPing

/-- PingCheckBase.do_to_value, lines 204-207: the sentinel yields False;
otherwise float(value_string) <= max_ping. -/
def pingCheckBase_do_to_value (max_ping : ℚ) : PingValue → Option Bool
  | .noPing => some false
  | .time v => some (decide (v ≤ max_ping))

/-- StatusCheck.check, lines 143-150, instantiated for PingCheck. -/
def pingCheck_check (max_ping : ℚ) (probe : Option ℚ) :
    PingValue × List (Option Bool) :=
  let value := pingCheck_do_check probe
  (value, [pingCheckBase_do_to_value max_ping value])

/-- DnsCheck.do_check, lines 301-307: dns_resolve either succeeds (return
the string True) or raises (the except branch logs and returns the string
False). -/
def dnsCheck_do_check (resolves : Bool) : String :=
  if resolves then "True" else "False"

/-- DnsCheck.do_to_value, lines 298-299: the body evaluates
bool(value_string) and discards it — the function has no return
statement, so in Python it always returns None, whatever the value
string is. (Even the discarded bool(value_string) is True for both "True"
and "False", both being non-empty strings.) -/
def dnsCheck_do_to_value (value_string : String) : Option Bool := none

/-- StatusCheck.check, lines 143-150, instantiated for DnsCheck. -/
def dnsCheck_check (resolves : Bool) : String × List (Option Bool) :=
  let value := dnsCheck_do_check resolves
  (value, [dnsCheck_do_to_value value])

/-- C9. Evaluation of the leaf checks at a failing probe: PingCheck does
convert a ping fault into the sentinel -1 with a Fail verdict, but a DNS
resolution failure in DnsCheck yields the sentinel string False with an
Unknown (None) verdict, not the Fail verdict the claim requires —
DnsCheck.do_to_value never returns a value. -/
theorem dns_failure_verdict_unknown :
    dnsCheck_check false = ("False", [none]) ∧
    (none : Option Bool) ≠ some false ∧
    dnsCheck_check true = ("True", [none]) ∧
    pingCheck_check 200 none = (.noPing, [some false]) :=
  ⟨rfl, by decide, rfl, rfl⟩

/-! C10: the refresh does not read a consistent snapshot. In
Hardware.__update_leds (lines 120-129) the guarded region is only
test_state = self.test_state, which copies a reference to the one shared
mutable TestState object, not its fields; every field read that feeds the
five outputs happens after the lock is released. A concurrent
notify_test_completed therefore can be midway through its field writes
(which it performs under the lock) while the refresh samples the fields.
The demonstration below evaluates the refresh on the shared state as it
stands after only the first write of notify_test_completed(NORMAL, True)
has landed, and shows the resulting outputs differ from the outputs of
both consistent states (before any write and after all writes): the
refresh can compute its outputs from a partially updated state. -/

lemma pyRound_below_half (q : ℚ) (n : ℤ) (h1 : (n : ℚ) ≤ q)
    (h2 : q < n + 1/2) : pyRound q = n := by
  have hf : ⌊q⌋ = n := by
    rw [Int.floor_eq_iff]
    exact ⟨h1, by linarith⟩
  simp only [pyRound, hf]
  rw [if_pos (by linarith)]

/-- The field writes performed by notify_test_completed(NORMAL, result)
(src/hardware.py lines 86-91) in source order: result, running, scheduled,
and — only for a falsy result — the failure time. Each element is one
atomic mutation of the shared TestState. -/
def notifyCompletedNormalWrites (result : Option Bool) (now : ℚ) :
    List (TestState → TestState) :=
  [fun s => { s with normal_test_result := result },
   fun s => { s with normal_test_running := false },
   fun s => { s with scheduled_normal_test := false }] ++
  (if truthy result then []
   else [fun s => { s with last_normal_test_failure_time := now }])

/-- The shared state once the first k of the writes have landed. -/
def afterWrites (writes : List (TestState → TestState)) (k : ℕ)
    (s : TestState) : TestState :=
  (writes.take k).foldl (fun st f => f st) s

/-- The shared state at the moment the refresh samples it in the
demonstrated schedule: a normal batch failed at time 1000 and a new normal
batch is running (started at 0); notify_test_completed(NORMAL, True) runs
concurrently and has performed only its first write when the refresh,
having already released the state lock, reads every field. -/
def c10State : TestState :=
  { normal_test_result := some false
    extended_test_result := some true
    scheduled_normal_test := false
    scheduled_extended_test := false
    last_normal_test_failure_time := 1000
    last_extended_test_failure_time := 0
    normal_test_running := true
    extended_test_running := false
    last_normal_test_started_time := 0
    last_extended_test_started_time := 0 }

/-- C10 demonstration. At time 1000.1, with
notify_test_completed(NORMAL, True) concurrent with a refresh: the state
seen after only the first write (the result field) makes the refresh light
the normal Pass LED with the Running LED also on — but in the consistent
pre-notification state the normal Pass LED is off, and in the consistent
post-notification state the Running LED is off. The outputs therefore
correspond to no single consistent snapshot of the shared state, refuting
the claim that a refresh never computes its outputs from a partially
updated state. -/
theorem refresh_partial_state_cex :
    ((update_leds (10001/10)
        (afterWrites (notifyCompletedNormalWrites (some true) (10001/10)) 1
          c10State)).normal_pass = true ∧
      (update_leds (10001/10)
        (afterWrites (notifyCompletedNormalWrites (some true) (10001/10)) 0
          c10State)).normal_pass = false) ∧
    ((update_leds (10001/10)
        (afterWrites (notifyCompletedNormalWrites (some true) (10001/10)) 1
          c10State)).test_running = true ∧
      (update_leds (10001/10)
        (afterWrites (notifyCompletedNormalWrites (some true) (10001/10))
          (notifyCompletedNormalWrites (some true) (10001/10)).length
          c10State)).test_running = false) := by
  have hblink : get_blink_state (10001/10) 1000 = true := by
    have harg : (10001 : ℚ) / 10 * 10 = ((10001 : ℤ) : ℚ) := by norm_num
    have hr : pyRound ((10001 : ℚ) / 10 * 10) = 10001 := by
      rw [harg, pyRound_below_half _ 10001 (by norm_num) (by norm_num)]
    simp only [get_blink_state]
    rw [if_pos (by norm_num : (1000 : ℚ) + 60 * 60 ≥ 10001/10), hr]
    decide
  have hs1 : afterWrites (notifyCompletedNormalWrites (some true) (10001/10))
      1 c10State = { c10State with normal_test_result := some true } := rfl
  have hs0 : afterWrites (notifyCompletedNormalWrites (some true) (10001/10))
      0 c10State = c10State := rfl
  have hs3 : afterWrites (notifyCompletedNormalWrites (some true) (10001/10))
      (notifyCompletedNormalWrites (some true) (10001/10)).length c10State =
      { c10State with
          normal_test_result := some true
          normal_test_running := false
          scheduled_normal_test := false } := rfl
  refine ⟨⟨?_, ?_⟩, ?_, ?_⟩
  · rw [hs1]
    simp [update_leds, c10State, truthy, hblink]
  · rw [hs0]
    simp [update_leds, c10State, truthy]
  · rw [hs1]
    simp [update_leds, c10State]
  · rw [hs3]
    simp only [update_leds, c10State]
    norm_num

end NetworkStatus
